import Mathlib

/-!
Verification of the Reticle MCP debugging proxy against its specification.

The data model is translated from `frontend/src/types/index.ts`. The
presentation-layer analyzer component is translated from the frontend
`ServerAnalyzer` source. Engine components whose code is not part of the
frontend sources (frame classifier/correlator, token estimator and
aggregator, static server analyzer backend, log store) are modelled from
the specification, as indicated on each definition.
-/

namespace Reticle

/-- `Direction` from `types/index.ts`: `'in' | 'out'`. -/
inductive Direction where
  | dirIn
  | dirOut
deriving DecidableEq, Repr

/-- `MessageType` from `types/index.ts`: `'jsonrpc' | 'raw' | 'stderr'`. -/
inductive MessageType where
  | jsonrpc
  | raw
  | stderr
deriving DecidableEq, Repr

/-- `LogEntry` from `types/index.ts`. Timestamps are microseconds since
epoch, kept as `Nat`. -/
structure LogEntry where
  id : String
  session_id : String
  timestamp : Nat
  direction : Direction
  content : String
  method : Option String
  duration_micros : Option Nat
  message_type : Option MessageType
  token_count : Option Nat
deriving DecidableEq, Repr

/-- A JSON value, used for params/results/schemas. Numbers are kept as
integers, which is all the claims exercise. -/
inductive Json where
  | null
  | bool (b : Bool)
  | num (n : Int)
  | str (s : String)
  | arr (xs : List Json)
  | obj (kvs : List (String × Json))

/-- JSON-RPC ids are strings or integers; the spec insists the two identity
spaces are distinct and never coerced, so they form a sum. -/
inductive RpcId where
  | str (s : String)
  | num (n : Int)
deriving DecidableEq, Repr

/-- The error member of `ParsedMessage` in `types/index.ts`:
`\x7bcode, message, data?\x7d`. -/
structure RpcError where
  code : Int
  message : String
  data : Option Json

/-- `ParsedMessage` from `types/index.ts`. -/
structure ParsedMessage where
  jsonrpc : String
  id : Option RpcId
  method : Option String
  params : Option Json
  result : Option Json
  error : Option RpcError

/-- `Session` from `types/index.ts`. -/
structure Session where
  id : String
  started_at : Nat
  message_count : Nat
  last_activity : Nat
deriving DecidableEq, Repr

/-- `FilterOptions` from `types/index.ts`. -/
structure FilterOptions where
  method : Option String
  direction : Option Direction
  searchText : Option String
  sessionId : Option String
deriving DecidableEq, Repr

/-- `MethodTokenStats` from `types/index.ts`. -/
structure MethodTokenStats where
  total_tokens : Nat
  request_tokens : Nat
  response_tokens : Nat
  call_count : Nat
deriving DecidableEq, Repr

/-- `SessionTokenStats` from `types/index.ts`. The TS
`Record<string, MethodTokenStats>` becomes an association list (the spec
says insertion order is irrelevant). -/
structure SessionTokenStats where
  session_id : String
  tokens_to_server : Nat
  tokens_from_server : Nat
  total_tokens : Nat
  tokens_by_method : List (String × MethodTokenStats)
  tool_definitions_tokens : Nat
  tool_count : Nat
  prompt_definitions_tokens : Nat
  prompt_count : Nat
  resource_definitions_tokens : Nat
  resource_count : Nat
deriving DecidableEq, Repr

/-- `GlobalTokenStats` from `types/index.ts`. -/
structure GlobalTokenStats where
  total_tokens : Nat
  sessions : List (String × SessionTokenStats)
deriving DecidableEq, Repr

/-! ## Token Estimator

Modelled from the spec: the estimator source is not among the frontend
files. §4.5 asks for a deterministic, pure, total `estimate` with
`estimate("") = 0`, a length-weighted heuristic, and estimation of JSON
payloads over the canonical serialized form. -/

/-- Modelled from the spec: the Token Estimator's `estimate(text)`, a
length-weighted heuristic (about four characters per token), total and
deterministic, with `estimate "" = 0`. -/
def estimate (s : String) : Nat :=
  (s.length + 3) / 4

/-- Canonical JSON string escaping for the canonical serialized form. -/
def escChar (c : Char) : List Char :=
  if c = '"' then ['\\', '"']
  else if c = '\\' then ['\\', '\\']
  else if c = '\n' then ['\\', 'n']
  else if c = '\t' then ['\\', 't']
  else if c = '\r' then ['\\', 'r']
  else [c]

mutual

/-- Modelled from the spec: the canonical serialized form of a JSON value —
no inter-token whitespace, fields in stored order. -/
def serializeJson : Json → List Char
  | .null => "null".data
  | .bool b => (if b then "true" else "false").data
  | .num n => (toString n).data
  | .str s => '"' :: s.data.flatMap escChar ++ ['"']
  | .arr xs => '\x5b' :: serializeJsonArr xs ++ ['\x5d']
  | .obj kvs => '\x7b' :: serializeJsonObj kvs ++ ['\x7d']

/-- Comma-separated canonical serialization of array elements. -/
def serializeJsonArr : List Json → List Char
  | [] => []
  | [x] => serializeJson x
  | x :: y :: xs => serializeJson x ++ ',' :: serializeJsonArr (y :: xs)

/-- Comma-separated canonical serialization of object members. -/
def serializeJsonObj : List (String × Json) → List Char
  | [] => []
  | [(k, v)] => '"' :: k.data.flatMap escChar ++ '"' :: ':' :: serializeJson v
  | (k, v) :: kv :: kvs =>
      '"' :: k.data.flatMap escChar ++ '"' :: ':' :: serializeJson v
        ++ ',' :: serializeJsonObj (kv :: kvs)

end

/-- The canonical serialized form as a string. -/
def serializeCanonical (j : Json) : String :=
  String.mk (serializeJson j)

/-- Modelled from the spec: a JSON payload is estimated over its canonical
serialized form, never a pretty-printed one. -/
def estimateJson (j : Json) : Nat :=
  estimate (serializeCanonical j)

/-! ## Message Classifier & Correlator

Modelled from the spec (§4.3): the classifier/correlator source is not
among the frontend files; only the `ParsedMessage` and `LogEntry` shapes
are. Classification: method present → request if id present, else
notification; no method and result xor error present → response; anything
else is malformed and routed to `raw`. -/

/-- The closed three-way discrimination of §4.3, plus the malformed case
routed to `raw`. -/
inductive Classified where
  | request (id : RpcId) (method : String)
  | notification (method : String)
  | response (id : Option RpcId) (isError : Bool)
  | malformed

/-- The validity condition of the spec, as a boolean on the raw fields:
exactly one of \x7bmethod present\x7d or \x7bresult present xor error
present\x7d. -/
def validShape (m : ParsedMessage) : Bool :=
  Bool.xor m.method.isSome (Bool.xor m.result.isSome m.error.isSome)

/-- Modelled from the spec: classify a `ParsedMessage`. A valid message has
exactly one of \x7bmethod present\x7d or \x7bresult xor error present\x7d;
anything else is malformed. Among valid messages, method present means
request when an id is present and notification otherwise; no method means
response. -/
def classify (m : ParsedMessage) : Classified :=
  if validShape m then
    match m.method, m.id with
    | some mth, some i => .request i mth
    | some mth, none => .notification mth
    | none, _ => .response m.id m.error.isSome
  else .malformed

/-- The validity condition of the spec, as a proposition:
exactly one of \x7bmethod present\x7d or \x7bresult xor error present\x7d. -/
def ValidShape (m : ParsedMessage) : Prop :=
  Xor' m.method.isSome (Xor' m.result.isSome m.error.isSome)

instance (m : ParsedMessage) : Decidable (ValidShape m) := by
  unfold ValidShape; infer_instance

/-- Modelled from the spec: the correlator's per-direction maps of
outstanding request ids to the timestamp at which the request was
observed. Requests travelling client→server (`dirIn`) live in
`pendingIn`; server-initiated requests travelling `dirOut` live in
`pendingOut`. -/
structure Correlator where
  pendingIn : List (RpcId × Nat)
  pendingOut : List (RpcId × Nat)
deriving DecidableEq, Repr

/-- The empty correlator state. -/
def Correlator.empty : Correlator := ⟨[], []⟩

/-- The direction a response to a request travelling in `d` travels in. -/
def oppositeDir : Direction → Direction
  | .dirIn => .dirOut
  | .dirOut => .dirIn

/-- The outstanding-request map for requests that travelled in `d`. -/
def Correlator.pendingFor (st : Correlator) : Direction → List (RpcId × Nat)
  | .dirIn => st.pendingIn
  | .dirOut => st.pendingOut

/-- Look up an outstanding request timestamp by id. -/
def lookupPending (i : RpcId) : List (RpcId × Nat) → Option Nat
  | [] => none
  | (k, ts) :: rest => if k = i then some ts else lookupPending i rest

/-- Evict an outstanding request by id. -/
def removePending (i : RpcId) : List (RpcId × Nat) → List (RpcId × Nat)
  | [] => []
  | (k, ts) :: rest => if k = i then rest else (k, ts) :: removePending i rest

/-- Record an outstanding request in the map of its travel direction. -/
def Correlator.addPending (st : Correlator) (d : Direction) (i : RpcId)
    (ts : Nat) : Correlator :=
  match d with
  | .dirIn => { st with pendingIn := (i, ts) :: st.pendingIn }
  | .dirOut => { st with pendingOut := (i, ts) :: st.pendingOut }

/-- Drop the outstanding request `i` from the map of direction `d`. -/
def Correlator.dropPending (st : Correlator) (d : Direction) (i : RpcId) :
    Correlator :=
  match d with
  | .dirIn => { st with pendingIn := removePending i st.pendingIn }
  | .dirOut => { st with pendingOut := removePending i st.pendingOut }

/-- What kind of entry a frame produced: the three-way classification,
refined on responses by the correlation outcome, plus the `raw` and
`stderr` downgrades. -/
inductive EntryKind where
  | request
  | notification
  | correlatedResponse
  | uncorrelatedResponse
  | anomalousResponse
  | rawEntry
  | stderrEntry
deriving DecidableEq, Repr

/-- A decoded frame as handed to the classifier by the Frame Decoder:
either a parsed JSON-RPC message together with its raw text, a byte
sequence that failed JSON-RPC framing, or a line of the server's
standard-error stream. -/
inductive Frame where
  | jsonrpc (m : ParsedMessage) (content : String)
  | rawBytes (content : String)
  | stderrLine (content : String)

/-- Build a `LogEntry` with the given optional method/duration/type. -/
def mkEntry (entryId sid : String) (ts : Nat) (d : Direction)
    (content : String) (method : Option String) (dur : Option Nat)
    (mt : MessageType) : LogEntry :=
  { id := entryId, session_id := sid, timestamp := ts, direction := d,
    content := content, method := method, duration_micros := dur,
    message_type := some mt, token_count := some (estimate content) }

/-- Modelled from the spec: one step of the Message Classifier &
Correlator (§4.3). Requests are recorded as outstanding; responses are
looked up against the opposite direction's outstanding map; on a match the
duration is the response timestamp minus the stored request timestamp, and
a would-be negative delta is reported as an anomaly (no duration is
attached, nothing is clamped). Malformed frames are routed to `raw`. -/
def processFrame (st : Correlator) (entryId sid : String) (ts : Nat)
    (d : Direction) (f : Frame) : Correlator × LogEntry × EntryKind :=
  match f with
  | .stderrLine content =>
      (st, mkEntry entryId sid ts d content none none .stderr, .stderrEntry)
  | .rawBytes content =>
      (st, mkEntry entryId sid ts d content none none .raw, .rawEntry)
  | .jsonrpc m content =>
      match classify m with
      | .malformed =>
          (st, mkEntry entryId sid ts d content none none .raw, .rawEntry)
      | .request i mth =>
          (st.addPending d i ts,
           mkEntry entryId sid ts d content (some mth) none .jsonrpc,
           .request)
      | .notification mth =>
          (st, mkEntry entryId sid ts d content (some mth) none .jsonrpc,
           .notification)
      | .response oid _ =>
          match oid with
          | none =>
              (st, mkEntry entryId sid ts d content none none .jsonrpc,
               .uncorrelatedResponse)
          | some i =>
              match lookupPending i (st.pendingFor (oppositeDir d)) with
              | none =>
                  (st, mkEntry entryId sid ts d content none none .jsonrpc,
                   .uncorrelatedResponse)
              | some reqTs =>
                  let st' := st.dropPending (oppositeDir d) i
                  if reqTs ≤ ts then
                    (st',
                     mkEntry entryId sid ts d content none
                       (some (ts - reqTs)) .jsonrpc,
                     .correlatedResponse)
                  else
                    (st',
                     mkEntry entryId sid ts d content none none .jsonrpc,
                     .anomalousResponse)

/-! ## Log Store & Query

Modelled from the spec (§4.8): the store source is not among the frontend
files; only `FilterOptions` is. An append-only ordered sequence of
`LogEntry`; `query` returns the entries matching all supplied filters,
conjunctively, in capture order; `searchText` matches case-insensitively
against raw content. -/

/-- The Log Store: an append-only ordered sequence of entries. -/
structure LogStore where
  entries : List LogEntry

/-- Append one entry (capture order = list order). -/
def LogStore.append (st : LogStore) (e : LogEntry) : LogStore :=
  ⟨st.entries ++ [e]⟩

/-- Case-folded characters of a string. -/
def lowerChars (s : String) : List Char :=
  s.data.map Char.toLower

/-- Whether `needle` occurs as a contiguous run inside `hay`. -/
def containsSub (needle : List Char) : List Char → Bool
  | [] => needle.isEmpty
  | c :: cs => needle.isPrefixOf (c :: cs) || containsSub needle cs

/-- A supplied (`some`) filter must pass its test; an absent one always
matches. -/
def optMatch (o : Option α) (p : α → Bool) : Bool :=
  match o with
  | none => true
  | some v => p v

/-- Modelled from the spec: whether one entry matches all supplied filters
(conjunctive); `searchText` is matched case-insensitively against the raw
content. -/
def matchesFilter (f : FilterOptions) (e : LogEntry) : Bool :=
  optMatch f.method (fun m => e.method = some m) &&
  optMatch f.direction (fun d => e.direction = d) &&
  optMatch f.searchText (fun t => containsSub (lowerChars t) (lowerChars e.content)) &&
  optMatch f.sessionId (fun s => e.session_id = s)

/-- Modelled from the spec: `query` returns the matching entries in
capture order. -/
def LogStore.query (st : LogStore) (f : FilterOptions) : List LogEntry :=
  st.entries.filter (matchesFilter f)

/-- The filter object with no filters supplied. -/
def noFilters : FilterOptions :=
  ⟨none, none, none, none⟩

/-! ## Token Aggregator

Modelled from the spec (§4.6): the aggregator source is not among the
frontend files; only the stats shapes are. Every classified call updates
the session's directional totals, the per-method bucket and the total;
definitional overhead is captured exactly once per session and tracked
separately from call traffic. -/

/-- One aggregation event: a correlated call with its request and response
token costs, or the one-time observation of the session's capability
definitions (tool/prompt/resource definition tokens and counts). -/
inductive AggEvent where
  | call (method : String) (reqTokens respTokens : Nat)
  | capabilities (toolTok toolCnt promptTok promptCnt resTok resCnt : Nat)

/-- Aggregator state for one session: the published stats plus the flag
that the one-time definitional overhead has been captured. -/
structure SessionAgg where
  stats : SessionTokenStats
  defsCaptured : Bool

/-- A fresh, all-zero stats record for a session. -/
def emptySessionStats (sid : String) : SessionTokenStats :=
  { session_id := sid, tokens_to_server := 0, tokens_from_server := 0,
    total_tokens := 0, tokens_by_method := [],
    tool_definitions_tokens := 0, tool_count := 0,
    prompt_definitions_tokens := 0, prompt_count := 0,
    resource_definitions_tokens := 0, resource_count := 0 }

/-- The aggregator's initial state for a session. -/
def SessionAgg.init (sid : String) : SessionAgg :=
  ⟨emptySessionStats sid, false⟩

/-- Update (or create) the per-method bucket for one call. -/
def bumpMethod (m : String) (reqT respT : Nat) :
    List (String × MethodTokenStats) → List (String × MethodTokenStats)
  | [] => [(m, ⟨reqT + respT, reqT, respT, 1⟩)]
  | (k, s) :: rest =>
      if k = m then
        (k, ⟨s.total_tokens + reqT + respT, s.request_tokens + reqT,
             s.response_tokens + respT, s.call_count + 1⟩) :: rest
      else
        (k, s) :: bumpMethod m reqT respT rest

/-- Modelled from the spec: apply one aggregation event. A call updates the
directional totals, the per-method bucket and the session total as one
step; capability definitions are captured exactly once (a re-listing
without a list-changed signal is ignored). -/
def applyEvent (a : SessionAgg) : AggEvent → SessionAgg
  | .call m reqT respT =>
      { a with stats :=
        { a.stats with
            tokens_to_server := a.stats.tokens_to_server + reqT,
            tokens_from_server := a.stats.tokens_from_server + respT,
            total_tokens := a.stats.total_tokens + reqT + respT,
            tokens_by_method := bumpMethod m reqT respT a.stats.tokens_by_method } }
  | .capabilities tT tC pT pC rT rC =>
      if a.defsCaptured then a
      else
        { defsCaptured := true,
          stats :=
          { a.stats with
              total_tokens := a.stats.total_tokens + tT + pT + rT,
              tool_definitions_tokens := a.stats.tool_definitions_tokens + tT,
              tool_count := a.stats.tool_count + tC,
              prompt_definitions_tokens := a.stats.prompt_definitions_tokens + pT,
              prompt_count := a.stats.prompt_count + pC,
              resource_definitions_tokens := a.stats.resource_definitions_tokens + rT,
              resource_count := a.stats.resource_count + rC } }

/-- Aggregate a whole event sequence for one session. -/
def runAgg (sid : String) (events : List AggEvent) : SessionAgg :=
  events.foldl applyEvent (SessionAgg.init sid)

/-- Sum of the per-method `total_tokens` of a stats record's buckets. -/
def sumMethodTotals : List (String × MethodTokenStats) → Nat
  | [] => 0
  | (_, s) :: rest => s.total_tokens + sumMethodTotals rest

/-- A session's definitional overhead: the three definition-token
totals. -/
def defOverhead (s : SessionTokenStats) : Nat :=
  s.tool_definitions_tokens + s.prompt_definitions_tokens +
    s.resource_definitions_tokens

/-! ## JSON parsing

A small JSON reader, used to express that whitespace-only reformatting of a
payload does not change its estimate: two texts that read back as the same
`Json` value are estimated over the same canonical serialized form. -/

/-- Drop leading whitespace. -/
def skipWs (cs : List Char) : List Char :=
  cs.dropWhile Char.isWhitespace

/-- Decode one escape character of a JSON string. -/
def unescChar (c : Char) : Option Char :=
  if c = '"' then some '"'
  else if c = '\\' then some '\\'
  else if c = '/' then some '/'
  else if c = 'n' then some '\n'
  else if c = 't' then some '\t'
  else if c = 'r' then some '\r'
  else none

/-- Read a JSON string body after the opening quote; returns the decoded
string and the rest of the input. -/
def parseStringBody : List Char → List Char → Option (String × List Char)
  | [], _ => none
  | '"' :: cs, acc => some (String.mk acc.reverse, cs)
  | '\\' :: [], _ => none
  | '\\' :: e :: cs, acc =>
      match unescChar e with
      | some c => parseStringBody cs (c :: acc)
      | none => none
  | c :: cs, acc => parseStringBody cs (c :: acc)

/-- Read a run of decimal digits as a natural number. -/
def parseNatLit (cs : List Char) : Option (Nat × List Char) :=
  let digits := cs.takeWhile Char.isDigit
  if digits.isEmpty then none
  else
    some (digits.foldl (fun n c => n * 10 + (c.toNat - 48)) 0,
          cs.drop digits.length)

/-- Read an optionally negated integer literal. -/
def parseNumberLit (cs : List Char) : Option (Int × List Char) :=
  match cs with
  | '-' :: rest => (parseNatLit rest).map (fun p => (-(p.1 : Int), p.2))
  | _ => (parseNatLit cs).map (fun p => ((p.1 : Int), p.2))

/-- Consume an expected literal tail, or fail. -/
def dropLit (lit rest : List Char) : Option (List Char) :=
  if lit.isPrefixOf rest then some (rest.drop lit.length) else none

mutual

/-- Fuel-indexed recursive-descent JSON value reader. -/
def parseValue : Nat → List Char → Option (Json × List Char)
  | 0, _ => none
  | fuel + 1, cs =>
      match skipWs cs with
      | [] => none
      | c :: tl =>
          if c = 'n' then
            (dropLit ['u', 'l', 'l'] tl).map (fun r => (Json.null, r))
          else if c = 't' then
            (dropLit ['r', 'u', 'e'] tl).map (fun r => (Json.bool true, r))
          else if c = 'f' then
            (dropLit ['a', 'l', 's', 'e'] tl).map (fun r => (Json.bool false, r))
          else if c = '"' then
            (parseStringBody tl []).map (fun p => (Json.str p.1, p.2))
          else if c = '\x5b' then
            match skipWs tl with
            | '\x5d' :: r2 => some (Json.arr [], r2)
            | _ => (parseItems fuel tl).map (fun p => (Json.arr p.1, p.2))
          else if c = '\x7b' then
            match skipWs tl with
            | '\x7d' :: r2 => some (Json.obj [], r2)
            | _ => (parseMembers fuel tl).map (fun p => (Json.obj p.1, p.2))
          else
            (parseNumberLit (c :: tl)).map (fun p => (Json.num p.1, p.2))

/-- Comma-separated array elements up to the closing bracket. -/
def parseItems : Nat → List Char → Option (List Json × List Char)
  | 0, _ => none
  | fuel + 1, cs =>
      match parseValue fuel cs with
      | none => none
      | some (v, rest) =>
          match skipWs rest with
          | ',' :: rest2 => (parseItems fuel rest2).map (fun p => (v :: p.1, p.2))
          | '\x5d' :: rest2 => some ([v], rest2)
          | _ => none

/-- Comma-separated object members up to the closing brace. -/
def parseMembers : Nat → List Char →
    Option (List (String × Json) × List Char)
  | 0, _ => none
  | fuel + 1, cs =>
      match skipWs cs with
      | '"' :: rest =>
          match parseStringBody rest [] with
          | none => none
          | some (k, rest2) =>
              match skipWs rest2 with
              | ':' :: rest3 =>
                  match parseValue fuel rest3 with
                  | none => none
                  | some (v, rest4) =>
                      match skipWs rest4 with
                      | ',' :: rest5 =>
                          (parseMembers fuel rest5).map
                            (fun p => ((k, v) :: p.1, p.2))
                      | '\x7d' :: rest5 => some ([(k, v)], rest5)
                      | _ => none
              | _ => none
      | _ => none

end

/-- Read a whole JSON text: one value, possibly surrounded by
whitespace. -/
def parseJson (s : String) : Option Json :=
  match parseValue (s.length + 1) s.data with
  | some (j, rest) => if (skipWs rest).isEmpty then some j else none
  | none => none

/-- Modelled from the spec: the estimate charged for a JSON-bearing text.
If the text reads back as JSON it is estimated over the canonical
serialized form; otherwise the raw text is estimated. -/
def estimateJsonText (s : String) : Nat :=
  match parseJson s with
  | some j => estimateJson j
  | none => estimate s

/-! ## Static Server Analyzer

Modelled from the spec (§4.7, §6): the analyzer backend's source is not
among the frontend files; only its `ServerAnalysis` consumer is. The
`ServerAnalysis` shape follows §3 and the fields read by the frontend
component (server name/version, protocol version, three breakdowns each
with total, count and ordered per-item costs, and `total_context_tokens`). -/

/-- One per-item cost: name, optional description, schema-token subtotal,
total token subtotal. -/
structure ItemCost where
  name : String
  description : Option String
  schema_tokens : Nat
  total_tokens : Nat
deriving DecidableEq, Repr

/-- One capability category's breakdown: total token count, item count,
ordered per-item costs. -/
structure CapabilityBreakdown where
  total_tokens : Nat
  count : Nat
  items : List ItemCost
deriving DecidableEq, Repr

/-- Modelled from the spec: the Static Server Analyzer's output. -/
structure ServerAnalysis where
  server_name : String
  server_version : String
  protocol_version : String
  total_context_tokens : Nat
  tools : CapabilityBreakdown
  prompts : CapabilityBreakdown
  resources : CapabilityBreakdown
deriving DecidableEq, Repr

/-- A capability item as returned by a list call: name, optional
description, and the schema to be serialized and costed. -/
structure CapItem where
  name : String
  description : Option String
  schema : Json

/-- Token cost of an optional description. -/
def estimateOptText : Option String → Nat
  | none => 0
  | some s => estimate s

/-- Modelled from the spec: cost one listed item — its serialized schema
and description each go through the Token Estimator. -/
def costOfItem (it : CapItem) : ItemCost :=
  { name := it.name, description := it.description,
    schema_tokens := estimateJson it.schema,
    total_tokens := estimateJson it.schema + estimateOptText it.description }

/-- Modelled from the spec: one capability category's breakdown from its
listed items — per-item costs in listing order, item count, and the
category total. -/
def scoreCategory (items : List CapItem) : CapabilityBreakdown :=
  { total_tokens := (items.map (fun it => (costOfItem it).total_tokens)).sum,
    count := items.length,
    items := items.map costOfItem }

/-- Modelled from the spec: the Scoring step — the three category totals
sum into `total_context_tokens`. -/
def scoreAnalysis (name ver proto : String)
    (tools prompts resources : List CapItem) : ServerAnalysis :=
  { server_name := name, server_version := ver, protocol_version := proto,
    total_context_tokens :=
      (scoreCategory tools).total_tokens + (scoreCategory prompts).total_tokens
        + (scoreCategory resources).total_tokens,
    tools := scoreCategory tools,
    prompts := scoreCategory prompts,
    resources := scoreCategory resources }

/-- The single error the analyzer reports on failure. -/
structure AnalysisError where
  message : String
deriving DecidableEq, Repr

/-- How one analyzer phase against the target server turns out: a value
after some elapsed seconds, an early process exit, or a malformed
response. -/
inductive PhaseResult (α : Type) where
  | success (val : α) (elapsedSecs : Nat)
  | exitedEarly
  | malformedResponse

/-- What the `initialize` handshake response carries. -/
structure HandshakeInfo where
  server_name : String
  server_version : String
  protocol_version : String

/-- The observable behaviour of the target server during one analyzer run:
whether it spawns, and how the handshake and the three list calls turn
out. -/
structure ServerScript where
  spawnOk : Bool
  handshake : PhaseResult HandshakeInfo
  toolsList : PhaseResult (List CapItem)
  promptsList : PhaseResult (List CapItem)
  resourcesList : PhaseResult (List CapItem)

/-- Modelled from the spec: one phase either completes within the timeout
or fails the whole run with a single error (timeout, early exit, malformed
response). -/
def runPhase (phase : String) (timeoutSecs : Nat) :
    PhaseResult α → Except AnalysisError α
  | .success v e =>
      if e ≤ timeoutSecs then .ok v
      else .error ⟨phase ++ " timed out"⟩
  | .exitedEarly => .error ⟨phase ++ ": process exited before completion"⟩
  | .malformedResponse => .error ⟨phase ++ ": malformed response"⟩

/-- Whether a phase fails under the given timeout. -/
def phaseFails (timeoutSecs : Nat) : PhaseResult α → Bool
  | .success _ e => timeoutSecs < e
  | _ => true

/-- Whether any step of the scripted run fails under the timeout. -/
def scriptFails (timeoutSecs : Nat) (s : ServerScript) : Bool :=
  !s.spawnOk || phaseFails timeoutSecs s.handshake
    || phaseFails timeoutSecs s.toolsList
    || phaseFails timeoutSecs s.promptsList
    || phaseFails timeoutSecs s.resourcesList

/-- The outcome of one `analyzeServer` call: its result, and whether the
child process was released on the way out. -/
structure AnalyzeRun where
  result : Except AnalysisError ServerAnalysis
  childReleased : Bool

/-- Modelled from the spec: `analyzeServer` — the sole entry point for
presentation layers. Stateless per call: a pure function of its arguments
and of the target server's scripted behaviour. Spawns, handshakes, lists
the three capability categories, scores, and tears the child down on every
exit path; any failing step fails the whole run with a single
`AnalysisError` and no partial `ServerAnalysis`. -/
def analyzeServer (command : String) (args : List String)
    (env : Option (List (String × String))) (timeoutSeconds : Nat)
    (script : ServerScript) : AnalyzeRun :=
  let result : Except AnalysisError ServerAnalysis :=
    if !script.spawnOk then
      .error ⟨"failed to spawn " ++ command⟩
    else
      match runPhase "initialize" timeoutSeconds script.handshake with
      | .error e => .error e
      | .ok hs =>
          match runPhase "tools/list" timeoutSeconds script.toolsList with
          | .error e => .error e
          | .ok tools =>
              match runPhase "prompts/list" timeoutSeconds script.promptsList with
              | .error e => .error e
              | .ok prompts =>
                  match runPhase "resources/list" timeoutSeconds
                      script.resourcesList with
                  | .error e => .error e
                  | .ok resources =>
                      .ok (scoreAnalysis hs.server_name hs.server_version
                        hs.protocol_version tools prompts resources)
  { result := result, childReleased := true }

/-! ## Frontend `ServerAnalyzer` component

Translated from the frontend `ServerAnalyzer` source: the `handleAnalyze`
handler guards on a blank command, clears the error and analysis state,
invokes the `analyze_mcp_server` backend with the trimmed command, the
whitespace-split arguments, a null environment and a 30 second timeout,
and stores either the analysis or the error message. -/

mutual

/-- JavaScript `String.split(/\s+/)`: accumulate the current piece until a
whitespace run begins. -/
def jsSplitSeg : List Char → List Char → List (List Char)
  | [], cur => [cur.reverse]
  | c :: cs, cur =>
      if c.isWhitespace then cur.reverse :: jsSplitSkip cs
      else jsSplitSeg cs (c :: cur)

/-- JavaScript `String.split(/\s+/)`: inside a whitespace run (one
separator, however long). -/
def jsSplitSkip : List Char → List (List Char)
  | [] => [[]]
  | c :: cs =>
      if c.isWhitespace then jsSplitSkip cs
      else jsSplitSeg cs [c]

end

/-- `args.split(/\s+/)` from the component source. -/
def jsSplitWhitespace (s : String) : List String :=
  (jsSplitSeg s.data []).map String.mk

/-- JavaScript `String.trim()`: strip whitespace from both ends. -/
def jsTrim (s : String) : String :=
  String.mk
    (((s.data.dropWhile Char.isWhitespace).reverse.dropWhile
        Char.isWhitespace).reverse)

/-- The component's state hooks: `command`, `args`, `isAnalyzing`,
`analysis`, `error`. -/
structure AnalyzerUiState where
  command : String
  args : String
  isAnalyzing : Bool
  analysis : Option ServerAnalysis
  error : Option String
deriving DecidableEq, Repr

/-- The argument record passed to `invoke('analyze_mcp_server', ...)`. -/
structure BackendCall where
  command : String
  args : List String
  env : Option (List (String × String))
  timeoutSecs : Nat
deriving DecidableEq, Repr

/-- The observable outcome of one `handleAnalyze` run: the backend call
made (if any), the component state at the moment the backend was invoked,
and the final state. -/
structure HandleAnalyzeRun where
  invokedWith : Option BackendCall
  preInvoke : Option AnalyzerUiState
  final : AnalyzerUiState

/-- `handleAnalyze` from the frontend `ServerAnalyzer` source. The backend
is an oracle mapping the invoke arguments to a result or a thrown error
message. -/
def handleAnalyze (st : AnalyzerUiState)
    (backend : BackendCall → Except String ServerAnalysis) :
    HandleAnalyzeRun :=
  if jsTrim st.command = "" then
    ⟨none, none, st⟩
  else
    let pre : AnalyzerUiState :=
      { st with isAnalyzing := true, error := none, analysis := none }
    let argsList :=
      if jsTrim st.args = "" then [] else jsSplitWhitespace st.args
    let call : BackendCall := ⟨jsTrim st.command, argsList, none, 30⟩
    match backend call with
    | .ok a =>
        ⟨some call, some pre,
         { pre with isAnalyzing := false, analysis := some a }⟩
    | .error e =>
        ⟨some call, some pre,
         { pre with isAnalyzing := false, error := some e }⟩

/-! ## Scenario inputs and shape predicates -/

/-- The request of the spec's correlation scenario: id `"7"`, observed at
t = 1,000,000 µs travelling client→server. -/
def scenarioRequest : ParsedMessage :=
  ⟨"2.0", some (.str "7"), some "ping", none, none, none⟩

/-- The matching response of the spec's correlation scenario, observed at
t = 1,050,000 µs travelling server→client. -/
def scenarioResponse : ParsedMessage :=
  ⟨"2.0", some (.str "7"), none, none, some .null, none⟩

/-- Correlator state after observing the scenario request. -/
def scenarioState : Correlator :=
  (processFrame Correlator.empty "e1" "s" 1000000 .dirIn
    (.jsonrpc scenarioRequest "req")).1

/-- First tool schema of the analyzer scenario: serializes to 197
characters, costing 50 tokens. -/
def scenarioSchemaA : Json :=
  .str (String.mk (List.replicate 195 'a'))

/-- Second tool schema of the analyzer scenario: serializes to 119
characters, costing 30 tokens. -/
def scenarioSchemaB : Json :=
  .str (String.mk (List.replicate 117 'b'))

/-- The two listed tools of the analyzer scenario (no descriptions). -/
def scenarioTools : List CapItem :=
  [⟨"read_file", none, scenarioSchemaA⟩, ⟨"write_file", none, scenarioSchemaB⟩]

/-- The analyzer scenario: a server exposing the two tools and no prompts
or resources. -/
def scenarioAnalysis : ServerAnalysis :=
  scoreAnalysis "srv" "1.0" "2024-11-05" scenarioTools [] []

/-- What §3 requires of one capability breakdown relative to the listed
items: item count, per-item costs in listing order and the category
total. -/
def BreakdownMatches (src : List CapItem) (b : CapabilityBreakdown) : Prop :=
  b.count = src.length
  ∧ b.items = src.map costOfItem
  ∧ b.total_tokens = (b.items.map ItemCost.total_tokens).sum
  ∧ b.items.map ItemCost.name = src.map CapItem.name

/-- A scripted server whose process exits during the handshake. -/
def exitingScript : ServerScript :=
  ⟨true, .exitedEarly, .success [] 0, .success [] 0, .success [] 0⟩

/-- A scripted server that completes every phase within one second. -/
def healthyScript : ServerScript :=
  ⟨true, .success ⟨"srv", "1.0", "2024-11-05"⟩ 1, .success [] 1,
   .success [] 1, .success [] 1⟩

/-- A component state with a blank (whitespace-only) command. -/
def blankCommandState : AnalyzerUiState :=
  ⟨"   ", "", false, none, none⟩

/-- A component state with a usable command and no arguments. -/
def readyCommandState : AnalyzerUiState :=
  ⟨"npx server", "", false, none, none⟩

/-- A backend oracle that always throws. -/
def throwingBackend : BackendCall → Except String ServerAnalysis :=
  fun _ => .error "spawn failed"

/-! ## Lemmas -/

/-- `scoreCategory` satisfies the §3 breakdown shape for any listed
items. -/
theorem breakdownMatches_scoreCategory (src : List CapItem) :
    BreakdownMatches src (scoreCategory src) := by
  refine ⟨rfl, rfl, ?_, ?_⟩
  · simp only [scoreCategory, List.map_map]
    rfl
  · simp only [scoreCategory, List.map_map]
    simp [Function.comp, costOfItem]

/-- Bumping a method bucket adds exactly the call's tokens to the summed
per-method totals. -/
theorem sumMethodTotals_bumpMethod (m : String) (rt pt : Nat)
    (l : List (String × MethodTokenStats)) :
    sumMethodTotals (bumpMethod m rt pt l) = sumMethodTotals l + rt + pt := by
  induction l with
  | nil => simp [bumpMethod, sumMethodTotals]
  | cons kv rest ih =>
      obtain ⟨k, s⟩ := kv
      by_cases h : k = m
      · simp [bumpMethod, h, sumMethodTotals]
        omega
      · simp [bumpMethod, h, sumMethodTotals, ih]
        omega

/-- The aggregator invariant: summed per-method totals plus definitional
overhead equals the session total, preserved by every event. -/
theorem agg_invariant (events : List AggEvent) :
    ∀ a : SessionAgg,
      sumMethodTotals a.stats.tokens_by_method + defOverhead a.stats
          = a.stats.total_tokens →
      sumMethodTotals (events.foldl applyEvent a).stats.tokens_by_method
          + defOverhead (events.foldl applyEvent a).stats
        = (events.foldl applyEvent a).stats.total_tokens := by
  induction events with
  | nil => intro a h; simpa using h
  | cons e es ih =>
      intro a h
      simp only [List.foldl_cons]
      apply ih
      cases e with
      | call m rt pt =>
          simp [applyEvent, defOverhead, sumMethodTotals_bumpMethod] at h ⊢
          omega
      | capabilities tT tC pT pC rT rC =>
          by_cases hc : a.defsCaptured
          · simpa [applyEvent, hc] using h
          · simp [applyEvent, hc, defOverhead] at h ⊢
            omega

/-! ## Claims -/

/-- C5: for any sequence of aggregation events, the sum over all
per-method `total_tokens` in the resulting `SessionTokenStats` equals the
session's `total_tokens` minus its definitional overhead
(`tool_definitions_tokens + prompt_definitions_tokens +
resource_definitions_tokens`). -/
theorem method_totals_sum_eq_total_minus_overhead
    (sid : String) (events : List AggEvent) :
    sumMethodTotals (runAgg sid events).stats.tokens_by_method
      = (runAgg sid events).stats.total_tokens
        - defOverhead (runAgg sid events).stats := by
  have h := agg_invariant events (SessionAgg.init sid)
    (by simp [SessionAgg.init, emptySessionStats, sumMethodTotals, defOverhead])
  unfold runAgg
  omega

/-- C7: querying the Log Store with no filters returns all entries in
capture order; every filtered result is a sublist of the unfiltered one
(so each filter narrows or preserves, keeping capture order); and an entry
is in a query result exactly when it is stored and matches every supplied
filter (conjunctive combination). -/
theorem logstore_query_order_monotone_conjunctive (st : LogStore) :
    st.query noFilters = st.entries
    ∧ (∀ f : FilterOptions, (st.query f).Sublist st.entries)
    ∧ (∀ (f : FilterOptions) (e : LogEntry),
        e ∈ st.query f ↔
          e ∈ st.entries
          ∧ optMatch f.method (fun m => e.method = some m) = true
          ∧ optMatch f.direction (fun d => e.direction = d) = true
          ∧ optMatch f.searchText
              (fun t => containsSub (lowerChars t) (lowerChars e.content)) = true
          ∧ optMatch f.sessionId (fun s => e.session_id = s) = true) := by
  refine ⟨?_, ?_, ?_⟩
  · apply List.filter_eq_self.mpr
    intro a _
    rfl
  · intro f
    exact List.filter_sublist st.entries
  · intro f e
    simp [LogStore.query, List.mem_filter, matchesFilter, Bool.and_eq_true,
      and_assoc]

/-- C3: a `ParsedMessage` is accepted (classified as a request,
notification or response) exactly when exactly one of \x7bmethod
present\x7d or \x7bresult present xor error present\x7d holds; any other
frame is classified as malformed and routed to a raw entry. -/
theorem classify_accepts_exactly_valid_shapes (m : ParsedMessage) :
    (¬ classify m = .malformed ↔ ValidShape m)
    ∧ (∀ (st : Correlator) (entryId sid : String) (ts : Nat) (d : Direction)
        (content : String),
        classify m = .malformed →
          (processFrame st entryId sid ts d (.jsonrpc m content)).2.2
              = .rawEntry
          ∧ (processFrame st entryId sid ts d
              (.jsonrpc m content)).2.1.message_type = some .raw) := by
  constructor
  · obtain ⟨j, i, mth, p, r, e⟩ := m
    cases mth <;> cases r <;> cases e <;> cases i <;>
      simp [classify, validShape, ValidShape, Xor']
  · intro st entryId sid ts d content h
    simp [processFrame, h, mkEntry]

/-- C3 witness: the empty message (no method, no result, no error) is
malformed and produces a raw entry. -/
theorem classify_accepts_exactly_valid_shapes_witness :
    (processFrame Correlator.empty "e0" "s0" 5 .dirIn
        (.jsonrpc ⟨"2.0", none, none, none, none, none⟩ "?")).2.2
      = .rawEntry := by
  exact (classify_accepts_exactly_valid_shapes
    ⟨"2.0", none, none, none, none, none⟩).2 Correlator.empty "e0" "s0" 5
    .dirIn "?" rfl |>.1

/-- C2: every `LogEntry` the classifier produces satisfies the invariant
that `duration_micros` is present exactly when the entry is a correlated
response, and `method` is present exactly when the entry is a request or a
notification. -/
theorem logentry_method_duration_invariant (st : Correlator)
    (entryId sid : String) (ts : Nat) (d : Direction) (f : Frame) :
    ((processFrame st entryId sid ts d f).2.1.duration_micros.isSome = true
        ↔ (processFrame st entryId sid ts d f).2.2 = .correlatedResponse)
    ∧ ((processFrame st entryId sid ts d f).2.1.method.isSome = true
        ↔ ((processFrame st entryId sid ts d f).2.2 = .request
            ∨ (processFrame st entryId sid ts d f).2.2 = .notification)) := by
  cases f with
  | stderrLine c => simp [processFrame, mkEntry]
  | rawBytes c => simp [processFrame, mkEntry]
  | jsonrpc m c =>
      cases hc : classify m with
      | malformed => simp [processFrame, hc, mkEntry]
      | request i mth => simp [processFrame, hc, mkEntry]
      | notification mth => simp [processFrame, hc, mkEntry]
      | response oid isErr =>
          cases oid with
          | none => simp [processFrame, hc, mkEntry]
          | some i =>
              cases hl : lookupPending i (st.pendingFor (oppositeDir d)) with
              | none => simp [processFrame, hc, hl, mkEntry]
              | some reqTs =>
                  by_cases hle : reqTs ≤ ts
                  · simp [processFrame, hc, hl, hle, mkEntry]
                  · simp [processFrame, hc, hl, hle, mkEntry]

/-- C4: on a match the correlator sets `duration_micros` to the response
timestamp minus the stored request timestamp; a would-be negative delta is
reported as an anomaly with no duration attached (never clamped); every
attached duration arises from a stored request timestamp at or before the
response, so it is never negative; and the scenario — request id `"7"` at
t = 1,000,000 µs answered at t = 1,050,000 µs — yields a response entry
with `duration_micros = 50000`. -/
theorem correlator_duration_nonnegative_and_scenario :
    (∀ (st : Correlator) (entryId sid content : String) (ts : Nat)
        (d : Direction) (m : ParsedMessage) (i : RpcId) (b : Bool)
        (reqTs : Nat),
        classify m = .response (some i) b →
        lookupPending i (st.pendingFor (oppositeDir d)) = some reqTs →
          (reqTs ≤ ts →
            (processFrame st entryId sid ts d
                (.jsonrpc m content)).2.1.duration_micros = some (ts - reqTs)
            ∧ (processFrame st entryId sid ts d (.jsonrpc m content)).2.2
                = .correlatedResponse)
          ∧ (ts < reqTs →
            (processFrame st entryId sid ts d
                (.jsonrpc m content)).2.1.duration_micros = none
            ∧ (processFrame st entryId sid ts d (.jsonrpc m content)).2.2
                = .anomalousResponse))
    ∧ (∀ (st : Correlator) (entryId sid : String) (ts : Nat) (d : Direction)
        (f : Frame) (dur : Nat),
        (processFrame st entryId sid ts d f).2.1.duration_micros = some dur →
          ∃ i reqTs,
            lookupPending i (st.pendingFor (oppositeDir d)) = some reqTs
            ∧ reqTs ≤ ts ∧ dur = ts - reqTs)
    ∧ (processFrame scenarioState "e2" "s" 1050000 .dirOut
        (.jsonrpc scenarioResponse "resp")).2.1.duration_micros
        = some 50000 := by
  refine ⟨?_, ?_, rfl⟩
  · intro st entryId sid content ts d m i b reqTs hm hl
    constructor
    · intro hle
      simp [processFrame, hm, hl, hle, mkEntry]
    · intro hlt
      have : ¬ reqTs ≤ ts := by omega
      simp [processFrame, hm, hl, this, mkEntry]
  · intro st entryId sid ts d f dur h
    cases f with
    | stderrLine c => simp [processFrame, mkEntry] at h
    | rawBytes c => simp [processFrame, mkEntry] at h
    | jsonrpc m c =>
        cases hc : classify m with
        | malformed => simp [processFrame, hc, mkEntry] at h
        | request i mth => simp [processFrame, hc, mkEntry] at h
        | notification mth => simp [processFrame, hc, mkEntry] at h
        | response oid isErr =>
            cases oid with
            | none => simp [processFrame, hc, mkEntry] at h
            | some i =>
                cases hl : lookupPending i (st.pendingFor (oppositeDir d)) with
                | none => simp [processFrame, hc, hl, mkEntry] at h
                | some reqTs =>
                    by_cases hle : reqTs ≤ ts
                    · simp [processFrame, hc, hl, hle, mkEntry] at h
                      exact ⟨i, reqTs, hl, hle, h.symm⟩
                    · simp [processFrame, hc, hl, hle, mkEntry] at h

/-- C4 witness: the scenario instantiates the matching branch — looking up
id `"7"` in the stored state finds t = 1,000,000, and the correlated
response entry carries duration 50,000 µs. -/
theorem correlator_duration_nonnegative_and_scenario_witness :
    (processFrame scenarioState "e2" "s" 1050000 .dirOut
        (.jsonrpc scenarioResponse "resp")).2.1.duration_micros
      = some (1050000 - 1000000) :=
  (correlator_duration_nonnegative_and_scenario.1 scenarioState "e2" "s"
    "resp" 1050000 .dirOut scenarioResponse (.str "7") false 1000000 rfl rfl
    |>.1 (by decide)).1

/-- C6: the token estimator is deterministic and pure (`estimate x =
estimate x` for repeated calls), `estimate "" = 0`, and the estimate
charged for a JSON payload is invariant under whitespace-only
reformatting: any two texts that read back as the same JSON value are
estimated over the same canonical serialized form. -/
theorem estimate_deterministic_empty_zero_whitespace_invariant :
    (∀ s : String, estimate s = estimate s)
    ∧ estimate "" = 0
    ∧ (∀ (s₁ s₂ : String) (j : Json),
        parseJson s₁ = some j → parseJson s₂ = some j →
          estimateJsonText s₁ = estimateJsonText s₂) := by
  refine ⟨fun s => rfl, rfl, ?_⟩
  intro s₁ s₂ j h₁ h₂
  simp [estimateJsonText, h₁, h₂]

/-- C6 witness: the payload `\x7b"a":1\x7d` and its whitespace-reformatted
rendering cost the same. -/
theorem estimate_whitespace_invariant_witness :
    estimateJsonText "\x7b\"a\":1\x7d" = estimateJsonText "\x7b \"a\" : 1 \x7d" :=
  estimate_deterministic_empty_zero_whitespace_invariant.2.2
    "\x7b\"a\":1\x7d" "\x7b \"a\" : 1 \x7d" (.obj [("a", .num 1)]) rfl rfl

set_option maxRecDepth 8192 in
/-- C8: `total_context_tokens` always equals the sum of the tools, prompts
and resources category totals; and the scenario server exposing two tools
with schema tokens 50 and 30 and no prompts or resources yields
`tools.total_tokens = 80` (plus the zero description costs),
`tools.count = 2`, `prompts.count = 0`, and `total_context_tokens` equal
to the tools category total. -/
theorem total_context_tokens_sums_categories_and_scenario :
    (∀ (name ver proto : String) (tools prompts resources : List CapItem),
      (scoreAnalysis name ver proto tools prompts resources).total_context_tokens
        = (scoreAnalysis name ver proto tools prompts resources).tools.total_tokens
          + (scoreAnalysis name ver proto tools prompts resources).prompts.total_tokens
          + (scoreAnalysis name ver proto tools prompts resources).resources.total_tokens)
    ∧ scenarioAnalysis.tools.items.map ItemCost.schema_tokens = [50, 30]
    ∧ scenarioAnalysis.tools.total_tokens = 80
    ∧ scenarioAnalysis.tools.count = 2
    ∧ scenarioAnalysis.prompts.count = 0
    ∧ scenarioAnalysis.total_context_tokens
        = scenarioAnalysis.tools.total_tokens := by
  refine ⟨fun name ver proto tools prompts resources => rfl, ?_, ?_, ?_, ?_, ?_⟩
  · decide
  · decide
  · decide
  · decide
  · decide

/-- C9: every `ServerAnalysis` the analyzer scores carries the server
name, server version and negotiated protocol version, and three capability
breakdowns, each holding the category token total, the item count and the
ordered per-item costs; each per-item cost carries the item's name, its
optional description, a schema-token subtotal and a total subtotal equal
to schema plus description cost. -/
theorem server_analysis_carries_complete_breakdowns
    (name ver proto : String) (tools prompts resources : List CapItem) :
    (scoreAnalysis name ver proto tools prompts resources).server_name = name
    ∧ (scoreAnalysis name ver proto tools prompts resources).server_version = ver
    ∧ (scoreAnalysis name ver proto tools prompts resources).protocol_version = proto
    ∧ BreakdownMatches tools
        (scoreAnalysis name ver proto tools prompts resources).tools
    ∧ BreakdownMatches prompts
        (scoreAnalysis name ver proto tools prompts resources).prompts
    ∧ BreakdownMatches resources
        (scoreAnalysis name ver proto tools prompts resources).resources
    ∧ (∀ it : CapItem,
        (costOfItem it).name = it.name
        ∧ (costOfItem it).description = it.description
        ∧ (costOfItem it).total_tokens
            = (costOfItem it).schema_tokens + estimateOptText it.description) :=
  ⟨rfl, rfl, rfl, breakdownMatches_scoreCategory tools,
   breakdownMatches_scoreCategory prompts,
   breakdownMatches_scoreCategory resources,
   fun it => ⟨rfl, rfl, rfl⟩⟩

/-- Every analyzer phase either fails (and `runPhase` reports an error) or
completes within the timeout (and `runPhase` returns its value). -/
theorem runPhase_cases (phase : String) (t : Nat) (p : PhaseResult α) :
    (∃ err, runPhase phase t p = .error err ∧ phaseFails t p = true)
    ∨ (∃ v, runPhase phase t p = .ok v ∧ phaseFails t p = false) := by
  cases p with
  | success v e =>
      by_cases h : e ≤ t
      · right
        exact ⟨v, by simp [runPhase, h], by simp [phaseFails]; omega⟩
      · left
        exact ⟨⟨phase ++ " timed out"⟩, by simp [runPhase, h],
          by simp [phaseFails]; omega⟩
  | exitedEarly => left; exact ⟨_, rfl, rfl⟩
  | malformedResponse => left; exact ⟨_, rfl, rfl⟩

/-- C1: every `analyzeServer` call tears the child process down, and
either every step succeeds within the timeout and a complete
`ServerAnalysis` is returned, or the run fails (spawn failure, timeout,
process exit before completion, malformed handshake or list response) with
a single `AnalysisError` and no partial `ServerAnalysis`; each call is a
pure, stateless function of its arguments and the server's behaviour. -/
theorem analyzeServer_complete_or_single_error (command : String)
    (args : List String) (env : Option (List (String × String)))
    (timeoutSeconds : Nat) (script : ServerScript) :
    (analyzeServer command args env timeoutSeconds script).childReleased = true
    ∧ (scriptFails timeoutSeconds script = true →
        ∃ e, (analyzeServer command args env timeoutSeconds script).result
          = .error e)
    ∧ (scriptFails timeoutSeconds script = false →
        ∃ a, (analyzeServer command args env timeoutSeconds script).result
          = .ok a)
    ∧ analyzeServer command args env timeoutSeconds script
        = analyzeServer command args env timeoutSeconds script := by
  obtain ⟨sp, hs, tl, pl, rl⟩ := script
  cases sp with
  | false =>
      refine ⟨rfl, fun _ => ⟨_, rfl⟩, fun hf => ?_, rfl⟩
      simp [scriptFails] at hf
  | true =>
      rcases runPhase_cases "initialize" timeoutSeconds hs with
        ⟨e1, he1, hf1⟩ | ⟨v1, hv1, hf1⟩
      · refine ⟨rfl, fun _ => ⟨e1, by simp [analyzeServer, he1]⟩,
          fun hok => ?_, rfl⟩
        simp [scriptFails, hf1] at hok
      · rcases runPhase_cases "tools/list" timeoutSeconds tl with
          ⟨e2, he2, hf2⟩ | ⟨v2, hv2, hf2⟩
        · refine ⟨rfl, fun _ => ⟨e2, by simp [analyzeServer, hv1, he2]⟩,
            fun hok => ?_, rfl⟩
          simp [scriptFails, hf2] at hok
        · rcases runPhase_cases "prompts/list" timeoutSeconds pl with
            ⟨e3, he3, hf3⟩ | ⟨v3, hv3, hf3⟩
          · refine ⟨rfl, fun _ => ⟨e3, by simp [analyzeServer, hv1, hv2, he3]⟩,
              fun hok => ?_, rfl⟩
            simp [scriptFails, hf3] at hok
          · rcases runPhase_cases "resources/list" timeoutSeconds rl with
              ⟨e4, he4, hf4⟩ | ⟨v4, hv4, hf4⟩
            · refine ⟨rfl,
                fun _ => ⟨e4, by simp [analyzeServer, hv1, hv2, hv3, he4]⟩,
                fun hok => ?_, rfl⟩
              simp [scriptFails, hf4] at hok
            · refine ⟨rfl, fun hfail => ?_,
                fun _ => ⟨scoreAnalysis v1.server_name v1.server_version
                  v1.protocol_version v2 v3 v4,
                  by simp [analyzeServer, hv1, hv2, hv3, hv4]⟩, rfl⟩
              simp [scriptFails, hf1, hf2, hf3, hf4] at hfail

/-- C1 witness: a server exiting mid-handshake yields a single error (and
the child is released), and a healthy server yields a complete analysis. -/
theorem analyzeServer_complete_or_single_error_witness :
    (∃ e, (analyzeServer "cmd" [] none 30 exitingScript).result = .error e)
    ∧ (∃ a, (analyzeServer "cmd" [] none 30 healthyScript).result = .ok a)
    ∧ (analyzeServer "cmd" [] none 30 exitingScript).childReleased = true :=
  ⟨(analyzeServer_complete_or_single_error "cmd" [] none 30
      exitingScript).2.1 rfl,
   (analyzeServer_complete_or_single_error "cmd" [] none 30
      healthyScript).2.2.1 rfl,
   (analyzeServer_complete_or_single_error "cmd" [] none 30
      exitingScript).1⟩

/-- C10: in every completed `handleAnalyze` run, a blank or
whitespace-only command means the backend is never invoked and the state
is untouched; otherwise the backend is invoked exactly once with the
trimmed command, null env and a 30 s timeout, from a state whose analysis
and error were both cleared, and afterwards exactly one of analysis and
error is set according to whether the backend succeeded or threw — never
both. -/
theorem handleAnalyze_guard_and_exclusive_result (st : AnalyzerUiState)
    (backend : BackendCall → Except String ServerAnalysis) :
    (jsTrim st.command = "" →
      (handleAnalyze st backend).invokedWith = none
      ∧ (handleAnalyze st backend).final = st)
    ∧ (¬ jsTrim st.command = "" →
        ∃ pre call,
          (handleAnalyze st backend).preInvoke = some pre
          ∧ (handleAnalyze st backend).invokedWith = some call
          ∧ pre.analysis = none
          ∧ pre.error = none
          ∧ call.command = jsTrim st.command
          ∧ call.env = none
          ∧ call.timeoutSecs = 30
          ∧ (∀ a, backend call = .ok a →
              (handleAnalyze st backend).final.analysis = some a
              ∧ (handleAnalyze st backend).final.error = none)
          ∧ (∀ e, backend call = .error e →
              (handleAnalyze st backend).final.error = some e
              ∧ (handleAnalyze st backend).final.analysis = none)
          ∧ ¬((handleAnalyze st backend).final.analysis.isSome = true
              ∧ (handleAnalyze st backend).final.error.isSome = true)) := by
  constructor
  · intro h
    simp [handleAnalyze, h]
  · intro h
    refine ⟨{ st with isAnalyzing := true, error := none, analysis := none },
      ⟨jsTrim st.command,
       if jsTrim st.args = "" then [] else jsSplitWhitespace st.args,
       none, 30⟩, ?_⟩
    cases hb : backend ⟨jsTrim st.command,
        if jsTrim st.args = "" then [] else jsSplitWhitespace st.args,
        none, 30⟩ with
    | ok a =>
        refine ⟨?_, ?_, rfl, rfl, rfl, rfl, rfl, ?_, ?_, ?_⟩ <;>
          simp [handleAnalyze, h, hb]
    | error e =>
        refine ⟨?_, ?_, rfl, rfl, rfl, rfl, rfl, ?_, ?_, ?_⟩ <;>
          simp [handleAnalyze, h, hb]

/-- C10 witness: a whitespace-only command never reaches the backend; a
usable command with a throwing backend ends with the error set and the
analysis cleared. -/
theorem handleAnalyze_guard_and_exclusive_result_witness :
    (handleAnalyze blankCommandState throwingBackend).invokedWith = none
    ∧ (handleAnalyze readyCommandState throwingBackend).final.error
        = some "spawn failed"
    ∧ (handleAnalyze readyCommandState throwingBackend).final.analysis
        = none := by
  refine ⟨((handleAnalyze_guard_and_exclusive_result blankCommandState
    throwingBackend).1 (by decide)).1, ?_⟩
  obtain ⟨pre, call, _, _, _, _, _, _, _, _, herr, _⟩ :=
    (handleAnalyze_guard_and_exclusive_result readyCommandState
      throwingBackend).2 (by decide)
  exact herr "spawn failed" rfl

end Reticle
